import Mathlib

/-!
Verification of the VoxBox job-processing pipeline against its specification.

Each Python module relevant to the claims is shallowly embedded as Lean
definitions: pure functions become Lean functions, the orchestrator's
side effects become an explicit event trace and ledger state, and
collaborator calls (download, transcription model, analysis service,
Dropbox listing) become parameters of an environment record.  Machine
floats (segment times) are modelled as rationals.
-/

namespace VoxBox

/-! ## src/transcriber.py -/

/-- `TranscriptSegment` from transcriber.py: a single transcript segment
with start/end times in seconds and its text.  Python floats are
modelled as rationals. -/
structure TranscriptSegment where
  start : ℚ
  «end» : ℚ
  text : String
deriving DecidableEq, Repr

/-- Python `str.strip()`: drop whitespace from both ends (character-list
implementation of `String.trim`; Python also strips a few more Unicode
space characters, which do not occur in the claims' inputs). -/
def stripChars (cs : List Char) : List Char :=
  ((cs.dropWhile Char.isWhitespace).reverse.dropWhile Char.isWhitespace).reverse

/-- `segment.text.strip().lower()` — the cleaned, case-normalized text
used by the merge pass for comparisons (ASCII case folding). -/
def cleanText (s : String) : String :=
  String.mk ((stripChars s.data).map Char.toLower)

/-- `needle` is an initial run of `hay` (character lists). -/
def startsWith : List Char → List Char → Bool
  | [], _ => true
  | _ :: _, [] => false
  | c :: cs, d :: ds => c = d && startsWith cs ds

/-- `needle` occurs contiguously somewhere inside `hay`. -/
def occursIn : List Char → List Char → Bool
  | needle, [] => needle.isEmpty
  | needle, d :: ds => startsWith needle (d :: ds) || occursIn needle ds

/-- Python's substring test `a in b` on strings: the character sequence
of `a` occurs contiguously inside that of `b`. -/
def strIn (a b : String) : Bool :=
  occursIn a.toList b.toList

/-- The loop body of `Transcriber._merge_segments`: walks the remaining
segments carrying the accepted list `merged` (in order) and the set of
seen cleaned texts (`seen`, duplicate-free, modelled as a list).
Mirrors the Python loop: skip empty/seen texts, skip a segment whose
cleaned text is a substring of the last accepted one, replace the last
accepted segment when its text is a substring of the new one (updating
the seen set), otherwise append. -/
def mergeLoop (merged : List TranscriptSegment) (seen : List String) :
    List TranscriptSegment → List TranscriptSegment
  | [] => merged
  | segment :: rest =>
    let clean_text := cleanText segment.text
    if clean_text = "" ∨ seen.contains clean_text then
      mergeLoop merged seen rest
    else if merged = [] then
      mergeLoop (merged ++ [segment]) (clean_text :: seen) rest
    else
      let last_clean := cleanText (merged.getLastD ⟨0, 0, ""⟩).text
      if strIn clean_text last_clean then
        mergeLoop merged seen rest
      else if strIn last_clean clean_text then
        mergeLoop (merged.dropLast ++ [segment])
          (clean_text :: seen.erase last_clean) rest
      else
        mergeLoop (merged ++ [segment]) (clean_text :: seen) rest

/-- `Transcriber._merge_segments`: merge adjacent segments with
identical or overlapping text (the `if not segments: return []` guard
is absorbed by the loop, which returns `[]` on an empty list). -/
def mergeSegments (segments : List TranscriptSegment) : List TranscriptSegment :=
  mergeLoop [] [] segments

/-! ### Structural facts about the merge pass -/

/-- The merge loop only ever selects segments from its input: its result
is a sublist of `pfx ++ rest` whenever the accumulator is a sublist of
`pfx`. -/
theorem mergeLoop_sublist (rest : List TranscriptSegment) :
    ∀ (merged : List TranscriptSegment) (seen : List String)
      (pfx : List TranscriptSegment), merged.Sublist pfx →
      (mergeLoop merged seen rest).Sublist (pfx ++ rest) := by
  induction rest with
  | nil =>
    intro merged seen pfx h
    simpa [mergeLoop] using h.trans (List.sublist_append_left pfx [])
  | cons segment rest ih =>
    intro merged seen pfx h
    have hskip : (pfx ++ rest).Sublist (pfx ++ segment :: rest) :=
      List.Sublist.append_left (List.sublist_cons_self segment rest) pfx
    have happ : (pfx ++ segment :: rest) = (pfx ++ [segment]) ++ rest := by
      simp
    have hkeep : ∀ seen', (mergeLoop (merged ++ [segment]) seen' rest).Sublist
        (pfx ++ segment :: rest) := by
      intro seen'
      rw [happ]
      exact ih (merged ++ [segment]) seen' (pfx ++ [segment])
        (h.append (List.Sublist.refl [segment]))
    have hrepl : ∀ seen', (mergeLoop (merged.dropLast ++ [segment]) seen' rest).Sublist
        (pfx ++ segment :: rest) := by
      intro seen'
      rw [happ]
      exact ih (merged.dropLast ++ [segment]) seen' (pfx ++ [segment])
        (((List.dropLast_sublist merged).trans h).append (List.Sublist.refl [segment]))
    simp only [mergeLoop]
    split_ifs with h1 h2 h3 h4
    · exact (ih merged seen pfx h).trans hskip
    · exact hkeep _
    · exact (ih merged seen pfx h).trans hskip
    · exact hrepl _
    · exact hkeep _

/-- `mergeSegments segments` is a sublist of `segments`. -/
theorem mergeSegments_sublist (segments : List TranscriptSegment) :
    (mergeSegments segments).Sublist segments := by
  simpa [mergeSegments] using
    mergeLoop_sublist segments [] [] [] (List.Sublist.refl [])

/-- A merge pass that changes its input strictly shrinks it. -/
theorem mergeSegments_length_lt (segments : List TranscriptSegment)
    (h : mergeSegments segments ≠ segments) :
    (mergeSegments segments).length < segments.length :=
  lt_of_le_of_ne (mergeSegments_sublist segments).length_le
    (fun hl => h ((mergeSegments_sublist segments).eq_of_length hl))

/-- Iterating the merge pass at least `length` many times reaches a
fixed point. -/
theorem mergeSegments_iterate_fixed :
    ∀ (n : ℕ) (segments : List TranscriptSegment), segments.length ≤ n →
      mergeSegments (mergeSegments^[n] segments) = mergeSegments^[n] segments := by
  intro n
  induction n with
  | zero =>
    intro segments h
    have : segments = [] := List.length_eq_zero.mp (Nat.le_zero.mp h)
    subst this
    rfl
  | succ n ih =>
    intro segments h
    by_cases hfix : mergeSegments segments = segments
    · rw [Function.iterate_fixed hfix]
      exact hfix
    · rw [Function.iterate_succ_apply]
      exact ih (mergeSegments segments)
        (Nat.le_of_lt_succ (lt_of_lt_of_le (mergeSegments_length_lt segments hfix) h))

/-! ### Timestamped formatting (`TranscriptResult.format_with_timestamps`) -/

/-- Python `int(x)` on a float: truncation toward zero. -/
def pyInt (q : ℚ) : Int :=
  q.num.tdiv q.den

/-- Python `f"{n:02d}"`: decimal rendering zero-padded to width two. -/
def pad2 (n : Int) : String :=
  if 0 ≤ n ∧ n < 10 then "0" ++ toString n else toString n

/-- `TranscriptResult._format_timestamp`: seconds as `MM:SS` or
`HH:MM:SS` (Python `//` and `%` are floor division and modulo). -/
def formatTimestamp (seconds : ℚ) : String :=
  let total_seconds := pyInt seconds
  let hours := total_seconds.fdiv 3600
  let minutes := (total_seconds.fmod 3600).fdiv 60
  let secs := total_seconds.fmod 60
  if hours > 0 then
    pad2 hours ++ ":" ++ pad2 minutes ++ ":" ++ pad2 secs
  else
    pad2 minutes ++ ":" ++ pad2 secs

/-- The `lines` list built by the loop of
`TranscriptResult.format_with_timestamps`: carries the time of the last
inserted marker (`last`), and emits a `\n(timestamp)` marker entry
before a segment's text whenever `segment.start - last ≥ interval`. -/
def tsLines (interval : ℚ) (last : ℚ) : List TranscriptSegment → List String
  | [] => []
  | segment :: rest =>
    if interval ≤ segment.start - last then
      ("\n(" ++ formatTimestamp segment.start ++ ")") :: segment.text ::
        tsLines interval segment.start rest
    else
      segment.text :: tsLines interval last rest

/-- `TranscriptResult` from transcriber.py. -/
structure TranscriptResult where
  segments : List TranscriptSegment
  source : String
  language : Option String := none
deriving DecidableEq, Repr

/-- `TranscriptResult.format_with_timestamps`: empty result for no
segments, otherwise the space-joined, stripped `lines` list, with the
last-marker time initialized to `-interval_seconds` so that the first
segment is considered for a marker. -/
def TranscriptResult.format_with_timestamps (r : TranscriptResult)
    (interval_seconds : Int := 60) : String :=
  if r.segments = [] then ""
  else
    (String.intercalate " "
      (tsLines (interval_seconds : ℚ) (-(interval_seconds : ℚ)) r.segments)).trim

/-- Which segments receive a marker: the same recursion as `tsLines`,
reduced to the boolean insertion decision. -/
def markerFlags (interval : ℚ) (last : ℚ) : List TranscriptSegment → List Bool
  | [] => []
  | segment :: rest =>
    if interval ≤ segment.start - last then
      true :: markerFlags interval segment.start rest
    else
      false :: markerFlags interval last rest

/-- Marker placement as the spec words it: a marker always goes before
the very first segment, and thereafter before exactly those segments
whose start time is at least `interval` past the last inserted marker's
time. -/
def specMarkerFlags (interval : ℚ) : List TranscriptSegment → List Bool
  | [] => []
  | segment :: rest => true :: markerFlags interval segment.start rest

/-- Interleave marker entries with segment texts according to a flag
list: a flagged segment is preceded by its `\n(timestamp)` marker. -/
def flaggedLines : List Bool → List TranscriptSegment → List String
  | true :: fs, segment :: rest =>
    ("\n(" ++ formatTimestamp segment.start ++ ")") :: segment.text ::
      flaggedLines fs rest
  | false :: fs, segment :: rest => segment.text :: flaggedLines fs rest
  | _, _ => []

/-- The formatted `lines` are exactly the flag-directed interleaving. -/
theorem tsLines_eq_flaggedLines (interval : ℚ) :
    ∀ (segments : List TranscriptSegment) (last : ℚ),
      tsLines interval last segments =
        flaggedLines (markerFlags interval last segments) segments := by
  intro segments
  induction segments with
  | nil => intro last; rfl
  | cons segment rest ih =>
    intro last
    simp only [tsLines, markerFlags]
    split_ifs with h1
    · simp [flaggedLines, ih]
    · simp [flaggedLines, ih]

/-! ### Claims C3, C4, C7, C10 -/

/-- C3 (counterexample): the merge pass is not idempotent.  On segments
with texts `"a"`, `"bc"`, `"abc"`, one pass keeps `"a"` (not adjacent to
`"abc"` when `"abc"` absorbs `"bc"`), and a second pass then absorbs
`"a"` into `"abc"`. -/
theorem claim3_counterexample :
    mergeSegments (mergeSegments
        [⟨0, 1, "a"⟩, ⟨1, 2, "bc"⟩, ⟨2, 3, "abc"⟩]) ≠
      mergeSegments [⟨0, 1, "a"⟩, ⟨1, 2, "bc"⟩, ⟨2, 3, "abc"⟩] := by
  decide

/-- C3 (amended): a second merge pass can only drop further segments
(its output is a sublist of the first pass's output), and iterating the
merge pass stabilizes after at most `length segments` passes. -/
theorem claim3_merge_iterate_converges :
    (∀ segments : List TranscriptSegment,
        (mergeSegments (mergeSegments segments)).Sublist (mergeSegments segments))
    ∧ ∀ segments : List TranscriptSegment,
        mergeSegments (mergeSegments^[segments.length] segments) =
          mergeSegments^[segments.length] segments :=
  ⟨fun segments => mergeSegments_sublist (mergeSegments segments),
   fun segments => mergeSegments_iterate_fixed segments.length segments le_rfl⟩

/-- C4 (counterexample): the merge pass does not touch timing values,
so its output need not be non-overlapping: two distinct-text segments
with overlapping times pass through unchanged. -/
theorem claim4_counterexample :
    ¬ (mergeSegments [⟨0, 10, "x"⟩, ⟨5, 15, "y"⟩]).Chain'
        (fun a b => a.«end» ≤ b.start) := by
  have h : mergeSegments [⟨0, 10, "x"⟩, ⟨5, 15, "y"⟩] =
      [⟨0, 10, "x"⟩, ⟨5, 15, "y"⟩] := by decide
  rw [h]
  norm_num [List.chain'_cons, List.chain'_singleton]

/-- C4 (amended): the merge pass preserves chronological
non-overlap — if every earlier input segment ends no later than every
later one starts, the same holds of the merged output. -/
theorem claim4_merge_preserves_nonoverlap
    (segments : List TranscriptSegment)
    (h : segments.Pairwise (fun a b => a.«end» ≤ b.start)) :
    (mergeSegments segments).Pairwise (fun a b => a.«end» ≤ b.start) :=
  h.sublist (mergeSegments_sublist segments)

/-- C4 (witness): the amended theorem applied to a concrete
non-overlapping input. -/
theorem claim4_witness :
    (mergeSegments [⟨0, 1, "a"⟩, ⟨2, 3, "b"⟩]).Pairwise
      (fun a b => a.«end» ≤ b.start) :=
  claim4_merge_preserves_nonoverlap [⟨0, 1, "a"⟩, ⟨2, 3, "b"⟩] (by decide)

/-- C7: `format_with_timestamps` is the flag-directed interleaving of
marker entries and segment texts, the marker flags (initialized as if
the previous marker were at `-interval`) coincide with the spec's
description — a marker before the very first segment (whose start is
non-negative), then before exactly those segments whose start is at
least `interval` past the last marker — and with `interval = 60` and
segments starting at 0, 30, 65, 130 markers go before 0, 65, 130 and
not before 30. -/
theorem claim7_format_with_timestamps_markers :
    (∀ (r : TranscriptResult) (interval : Int), r.segments ≠ [] →
        r.format_with_timestamps interval =
          (String.intercalate " "
            (flaggedLines
              (markerFlags (interval : ℚ) (-(interval : ℚ)) r.segments)
              r.segments)).trim)
    ∧ (∀ (interval : ℚ) (segments : List TranscriptSegment),
        (∀ s ∈ segments.take 1, 0 ≤ s.start) →
        markerFlags interval (-interval) segments =
          specMarkerFlags interval segments)
    ∧ markerFlags 60 (-60)
        [⟨0, 2, "a"⟩, ⟨30, 31, "b"⟩, ⟨65, 66, "c"⟩, ⟨130, 131, "d"⟩] =
        [true, false, true, true] := by
  refine ⟨?_, ?_, ?_⟩
  · intro r interval hne
    rw [TranscriptResult.format_with_timestamps, if_neg hne,
      tsLines_eq_flaggedLines]
  · intro interval segments h
    cases segments with
    | nil => rfl
    | cons s rest =>
      have hs : 0 ≤ s.start := h s (by simp)
      simp only [markerFlags, specMarkerFlags]
      rw [if_pos (by linarith)]
  · norm_num [markerFlags]

/-- C7 (witness): the theorem applied to a concrete one-segment result
and to the concrete four-segment marker example. -/
theorem claim7_witness :
    ((TranscriptResult.mk [⟨0, 2, "hello"⟩] "whisper" none).format_with_timestamps 60 =
      (String.intercalate " "
        (flaggedLines (markerFlags (60 : ℚ) (-(60 : ℚ)) [⟨0, 2, "hello"⟩])
          [⟨0, 2, "hello"⟩])).trim)
    ∧ markerFlags 60 (-60)
        [⟨0, 2, "a"⟩, ⟨30, 31, "b"⟩, ⟨65, 66, "c"⟩, ⟨130, 131, "d"⟩] =
        specMarkerFlags 60
          [⟨0, 2, "a"⟩, ⟨30, 31, "b"⟩, ⟨65, 66, "c"⟩, ⟨130, 131, "d"⟩] :=
  ⟨by
    have h := claim7_format_with_timestamps_markers.1
      (TranscriptResult.mk [⟨0, 2, "hello"⟩] "whisper" none) 60 (by simp)
    simpa using h,
   claim7_format_with_timestamps_markers.2.1 60
     [⟨0, 2, "a"⟩, ⟨30, 31, "b"⟩, ⟨65, 66, "c"⟩, ⟨130, 131, "d"⟩]
     (by norm_num)⟩

/-- C10: the merge pass only selects input segments: its output is a
sublist of the input — each output segment is an input segment with
start, end and text unmodified, in the input's relative order. -/
theorem claim10_merge_is_selection (segments : List TranscriptSegment) :
    (mergeSegments segments).Sublist segments :=
  mergeSegments_sublist segments

/-! ## src/url_parser.py -/

/-- The character class `[a-zA-Z0-9_-]` of the YouTube URL patterns. -/
def isVideoIdChar (c : Char) : Bool :=
  c.isAlpha || c.isDigit || c = '_' || c = '-'

/-- `re.search` of one pattern of `YOUTUBE_PATTERNS`: each pattern is
(optional scheme/host decoration followed by) a distinctive literal and
a capture group of exactly 11 id characters, so searching it amounts to
scanning for the first occurrence of the literal that is followed by 11
id characters, which form the captured group. -/
def scanPattern (lit : List Char) : List Char → Option String
  | [] => none
  | c :: cs =>
    if startsWith lit (c :: cs) then
      let candidate := ((c :: cs).drop lit.length).take 11
      if candidate.length = 11 && candidate.all isVideoIdChar then
        some (String.mk candidate)
      else
        scanPattern lit cs
    else
      scanPattern lit cs

/-- The distinctive literals of the six `YOUTUBE_PATTERNS`, in order:
watch, short-link, embed, shorts, live, mobile. -/
def youtubePatternLits : List (List Char) :=
  ["youtube.com/watch?v=".data, "youtu.be/".data, "youtube.com/embed/".data,
   "youtube.com/shorts/".data, "youtube.com/live/".data,
   "m.youtube.com/watch?v=".data]

/-- Split a character list at every occurrence of `sep`
(Python `str.split(sep)`: no collapsing, `[""]` on empty input). -/
def splitOnChar (sep : Char) : List Char → List (List Char)
  | [] => [[]]
  | c :: cs =>
    let r := splitOnChar sep cs
    if c = sep then [] :: r else (c :: r.headD []) :: r.tail

/-- Characters allowed in a URL scheme by `urllib.parse`
(first character must additionally be a letter). -/
def isSchemeChar (c : Char) : Bool :=
  c.isAlpha || c.isDigit || c = '+' || c = '-' || c = '.'

/-- `urllib.parse.urlparse` scheme removal: if the text up to the first
`:` is a well-formed scheme, drop it (the scheme itself is unused by
the fallback). -/
def dropScheme (cs : List Char) : List Char :=
  match cs.findIdx? (· = ':') with
  | some i =>
    if 0 < i ∧ (cs.take i).all isSchemeChar ∧ (cs.headD ' ').isAlpha then
      cs.drop (i + 1)
    else cs
  | none => cs

/-- The `netloc` and `query` of `urllib.parse.urlparse`, which are all
the fallback of `extract_video_id` consults: a netloc is parsed only
after a literal `//`, running to the next `/`, `?` or `#`; the query is
what follows the first `?` of the remainder, up to a `#`.
Percent-decoding of query values is not modelled (the fallback only
compares lengths of candidate ids). -/
def pyNetlocQuery (url : String) : String × String :=
  let rest := dropScheme url.data
  let notDelim : Char → Bool := fun c => !(c = '/' || c = '?' || c = '#')
  let (netloc, tail) :=
    if startsWith ['/', '/'] rest then
      ((rest.drop 2).takeWhile notDelim, (rest.drop 2).dropWhile notDelim)
    else ([], rest)
  let beforeFrag := tail.takeWhile (· ≠ '#')
  (String.mk netloc, String.mk ((beforeFrag.dropWhile (· ≠ '?')).drop 1))

/-- `urllib.parse.parse_qs(query)["v"][0]`: the first `name=value` pair
of the `&`-separated query with name `v` and a non-empty value
(`parse_qs` drops blank values and pairs without `=`). -/
def pyParseQsV (query : String) : Option String :=
  (splitOnChar '&' query.data).findSome? fun pair =>
    match pair.findIdx? (· = '=') with
    | some i =>
      if pair.take i = ['v'] ∧ pair.drop (i + 1) ≠ [] then
        some (String.mk (pair.drop (i + 1)))
      else none
    | none => none

/-- The `urlparse` fallback of `URLParser.extract_video_id`: accept a
`v` query parameter of length 11 when the netloc mentions
`youtube.com` or `youtu.be`. -/
def urlParseFallback (url : String) : Option String :=
  let nq := pyNetlocQuery url
  if strIn "youtube.com" nq.1 ∨ strIn "youtu.be" nq.1 then
    match pyParseQsV nq.2 with
    | some v => if v.length = 11 then some v else none
    | none => none
  else none

/-- `URLParser.extract_video_id`: strip the input, try the six URL
patterns in order, then the urlparse fallback. -/
def extractVideoId (url : String) : Option String :=
  let stripped := stripChars url.data
  match youtubePatternLits.findSome? (fun lit => scanPattern lit stripped) with
  | some vid => some vid
  | none => urlParseFallback (String.mk stripped)

/-- `URLParser.is_valid_youtube_url`. -/
def isValidYoutubeUrl (url : String) : Bool :=
  (extractVideoId url).isSome

/-- `URLParser.normalize_url`: canonical watch URL for the extracted
video id. -/
def normalizeUrl (url : String) : Option String :=
  (extractVideoId url).map
    (fun vid => "https://www.youtube.com/watch?v=" ++ vid)

/-- The regex search `https?://[^\s]+` inside a line: from the first
position starting with `http://` or `https://`, the maximal run of
non-whitespace characters. -/
def findHttpSub : List Char → Option String
  | [] => none
  | c :: cs =>
    if startsWith "https://".data (c :: cs) || startsWith "http://".data (c :: cs) then
      some (String.mk ((c :: cs).takeWhile (fun ch => !ch.isWhitespace)))
    else
      findHttpSub cs

/-- The per-line body of the loop of `URLParser.parse_job_file`: a
whole line recognized as a YouTube URL is normalized; otherwise the
first embedded `http(s)://` run is tried; otherwise the line yields
nothing. -/
def resolveLine (line : String) : Option String :=
  if isValidYoutubeUrl line then normalizeUrl line
  else
    match findHttpSub line.data with
    | some potential =>
      if isValidYoutubeUrl potential then normalizeUrl potential else none
    | none => none

/-- The loop of `URLParser.parse_job_file` over the stripped lines:
skip blank lines and `#` comments, return the first line that resolves. -/
def parseJobLoop : List (List Char) → Option String
  | [] => none
  | line :: rest =>
    let line := String.mk (stripChars line)
    if line == "" || startsWith ['#'] line.data then parseJobLoop rest
    else
      match resolveLine line with
      | some url => some url
      | none => parseJobLoop rest

/-- `URLParser.parse_job_file`: split the stripped content into lines
and scan them. -/
def parseJobFile (content : String) : Option String :=
  parseJobLoop (splitOnChar '\n' (stripChars content.data))

/-- Job-file resolution as the spec words it: strip every line, discard
blank lines and `#` comments, and resolve the first remaining line that
yields a URL. -/
def specParseJobFile (content : String) : Option String :=
  (((splitOnChar '\n' (stripChars content.data)).map
      (fun l => String.mk (stripChars l))).filter
    (fun l => !(l == "" || startsWith ['#'] l.data))).findSome? resolveLine

/-- The job-file loop is the filter-then-first-resolve description. -/
theorem parseJobLoop_eq_filter (lines : List (List Char)) :
    parseJobLoop lines =
      ((lines.map (fun l => String.mk (stripChars l))).filter
        (fun l => !(l == "" || startsWith ['#'] l.data))).findSome? resolveLine := by
  induction lines with
  | nil => rfl
  | cons line rest ih =>
    simp only [parseJobLoop, List.map_cons, List.filter_cons]
    by_cases h : (String.mk (stripChars line) == "" ||
        startsWith ['#'] (String.mk (stripChars line)).data) = true
    · rw [if_pos h, ih]
      simp [h]
    · rw [if_neg h]
      simp only [Bool.not_eq_true] at h
      simp only [h, Bool.not_false, if_pos, List.findSome?]
      cases resolveLine (String.mk (stripChars line)) <;> simp [ih]

/-- A successful pattern scan captures exactly 11 characters. -/
theorem scanPattern_length (lit : List Char) :
    ∀ (cs : List Char) (vid : String), scanPattern lit cs = some vid →
      vid.length = 11 := by
  intro cs
  induction cs with
  | nil => intro vid h; simp [scanPattern] at h
  | cons c cs ih =>
    intro vid h
    rw [scanPattern] at h
    simp only [] at h
    split at h
    · split at h
      · rename_i hlen
        rw [Option.some_inj] at h
        have h11 : (((c :: cs).drop lit.length).take 11).length = 11 :=
          of_decide_eq_true (Bool.and_elim_left hlen)
        rw [← h]
        simpa [String.length] using h11
      · exact ih vid h
    · exact ih vid h

/-- A video id extracted from any input has exactly 11 characters. -/
theorem extractVideoId_length (url : String) (vid : String)
    (h : extractVideoId url = some vid) : vid.length = 11 := by
  have hpats : ∀ (pats : List (List Char)) (cs : List Char) (v : String),
      pats.findSome? (fun lit => scanPattern lit cs) = some v → v.length = 11 := by
    intro pats cs
    induction pats with
    | nil => intro v hv; simp [List.findSome?] at hv
    | cons lit pats ih =>
      intro v hv
      rw [List.findSome?] at hv
      split at hv
      · rename_i w heq
        rw [Option.some_inj] at hv
        exact hv ▸ scanPattern_length lit cs w heq
      · exact ih v hv
  rw [extractVideoId] at h
  split at h
  · rename_i w heq
    rw [Option.some_inj] at h
    exact h ▸ hpats _ _ w heq
  · rw [urlParseFallback] at h
    split at h
    · split at h
      · split at h
        · rename_i hv
          rw [Option.some_inj] at h
          exact h ▸ hv
        · simp at h
      · simp at h
    · simp at h

/-- Whatever `normalize_url` returns is the canonical watch URL of an
11-character id. -/
theorem normalizeUrl_canonical (line url : String)
    (h : normalizeUrl line = some url) :
    ∃ vid : String, vid.length = 11 ∧
      url = "https://www.youtube.com/watch?v=" ++ vid := by
  rw [normalizeUrl] at h
  rw [Option.map_eq_some'] at h
  obtain ⟨vid, hx, hurl⟩ := h
  exact ⟨vid, extractVideoId_length line vid hx, hurl.symm⟩

/-- Whatever a line resolves to is canonical. -/
theorem resolveLine_canonical (line url : String)
    (h : resolveLine line = some url) :
    ∃ vid : String, vid.length = 11 ∧
      url = "https://www.youtube.com/watch?v=" ++ vid := by
  rw [resolveLine] at h
  split at h
  · exact normalizeUrl_canonical line url h
  · split at h
    · split at h
      · exact normalizeUrl_canonical _ url h
      · simp at h
    · simp at h

/-- Whatever the loop returns is canonical. -/
theorem parseJobLoop_canonical :
    ∀ (lines : List (List Char)) (url : String),
      parseJobLoop lines = some url →
      ∃ vid : String, vid.length = 11 ∧
        url = "https://www.youtube.com/watch?v=" ++ vid := by
  intro lines
  induction lines with
  | nil => intro url h; simp [parseJobLoop] at h
  | cons line rest ih =>
    intro url h
    rw [parseJobLoop] at h
    simp only [] at h
    split at h
    · exact ih url h
    · split at h
      · rename_i u heq
        rw [Option.some_inj] at h
        exact h ▸ resolveLine_canonical _ u heq
      · exact ih url h

/-- C8: job-file URL resolution scans the stripped, non-blank,
non-comment lines in order and returns the first resolvable line's
canonical watch URL; every non-failure result is the canonical
`https://www.youtube.com/watch?v=` form of an 11-character id; the
line `"check this out: https://youtu.be/dQw4w9WgXcQ"` resolves to the
canonical watch URL via its embedded short-link, and a `#` comment
line is ignored. -/
theorem claim8_parse_job_file :
    (∀ content : String, parseJobFile content = specParseJobFile content)
    ∧ (∀ content url : String, parseJobFile content = some url →
        ∃ vid : String, vid.length = 11 ∧
          url = "https://www.youtube.com/watch?v=" ++ vid)
    ∧ parseJobFile "check this out: https://youtu.be/dQw4w9WgXcQ" =
        some "https://www.youtube.com/watch?v=dQw4w9WgXcQ"
    ∧ parseJobFile "# https://youtu.be/dQw4w9WgXcQ" = none := by
  refine ⟨?_, ?_, by decide, by decide⟩
  · intro content
    exact parseJobLoop_eq_filter _
  · intro content url h
    exact parseJobLoop_canonical _ url h

/-- C8 (witness): the canonicality conjunct applied to the concrete
example content. -/
theorem claim8_witness :
    ∃ vid : String, vid.length = 11 ∧
      "https://www.youtube.com/watch?v=dQw4w9WgXcQ" =
        "https://www.youtube.com/watch?v=" ++ vid :=
  claim8_parse_job_file.2.1 "check this out: https://youtu.be/dQw4w9WgXcQ"
    "https://www.youtube.com/watch?v=dQw4w9WgXcQ" (by decide)

/-! ## src/gemini_client.py

The analysis response repair (`GeminiClient._parse_response`) operates
on the value produced by `json.loads`; JSON values are modelled by
`JValue`, and an unparseable response (a `json.JSONDecodeError`) by
`none` at the parser boundary. -/

/-- A parsed JSON value. -/
inductive JValue where
  | str (s : String)
  | num (q : ℚ)
  | jbool (b : Bool)
  | null
  | arr (elems : List JValue)
  | obj (fields : List (String × JValue))

/-- Replace the value of key `k` (Python dict assignment `d[k] = v`);
append when absent. -/
def setField : List (String × JValue) → String → JValue → List (String × JValue)
  | [], k, v => [(k, v)]
  | (k', v') :: rest, k, v =>
    if k' = k then (k, v) :: rest else (k', v') :: setField rest k v

/-- Python truthiness of a JSON value. -/
def truthy : JValue → Bool
  | .str s => !(s == "")
  | .num q => if q = 0 then false else true
  | .jbool b => b
  | .null => false
  | .arr l => !l.isEmpty
  | .obj fs => !fs.isEmpty

/-- The `uncategorized` repair tag:
`{"name": "uncategorized", "confidence": 100, "primary": True}`. -/
def uncategorizedTag : JValue :=
  .obj [("name", .str "uncategorized"), ("confidence", .num 100),
        ("primary", .jbool true)]

/-- `GeminiClient._get_default_value`. -/
def getDefaultValue (field : String) : JValue :=
  if field = "title" then .str "Untitled Video"
  else if field = "summary" then .str "No summary available."
  else if field = "key_takeaways" then .arr [.str "No key takeaways extracted."]
  else if field = "tags" then .arr [uncategorizedTag]
  else if field = "topics" then .arr []
  else .str ""

/-- `GeminiClient._fallback_response`. -/
def fallbackResponse (title : String) : JValue :=
  .obj [("title", .str title), ("summary", .str "Unable to generate summary."),
        ("key_takeaways", .arr [.str "Summary generation failed."]),
        ("tags", .arr [uncategorizedTag]), ("topics", .arr [])]

/-- One step of the required-field loop: `if field not in data:
data[field] = self._get_default_value(field)`. -/
def fillField (fs : List (String × JValue)) (field : String) :
    List (String × JValue) :=
  if (List.lookup field fs).isSome then fs else setField fs field (getDefaultValue field)

/-- The required-field loop over `["title", "summary", "key_takeaways",
"tags"]`, in order. -/
def fillRequired (fs : List (String × JValue)) : List (String × JValue) :=
  fillField (fillField (fillField (fillField fs "title") "summary")
    "key_takeaways") "tags"

/-- Does the value hold a non-empty JSON list?  (The complement of
`not isinstance(data["tags"], list) or len(data["tags"]) == 0`.) -/
def isNonemptyList : JValue → Bool
  | .arr (_ :: _) => true
  | _ => false

/-- Tag-list normalization: replace a missing-shape or empty tag list
wholesale with the single `uncategorized` tag. -/
def normalizeTags (fs : List (String × JValue)) : List (String × JValue) :=
  if isNonemptyList ((List.lookup "tags" fs).getD .null) then fs
  else setField fs "tags" (.arr [uncategorizedTag])

/-- The tag list of a response object (empty when absent or not a
list). -/
def getTags (fs : List (String × JValue)) : List JValue :=
  match List.lookup "tags" fs with
  | some (.arr l) => l
  | _ => []

/-- `any(tag.get("primary", False) for tag in data["tags"])`: scan the
tags left to right for a truthy `primary` value; `any` short-circuits
on the first hit, and a non-object tag raises (`.get` on a non-dict),
modelled as `none`. -/
def scanPrimary : List JValue → Option Bool
  | [] => some false
  | t :: ts =>
    match t with
    | .obj fs =>
      if truthy ((List.lookup "primary" fs).getD (.jbool false)) then some true
      else scanPrimary ts
    | _ => none

/-- `data["tags"][0]["primary"] = True`: force the first tag's
`primary` field (only reached when every tag is an object). -/
def setFirstPrimary : List JValue → List JValue
  | .obj fs :: rest => .obj (setField fs "primary" (.jbool true)) :: rest
  | other => other

/-- `if "topics" not in data: data["topics"] = []`. -/
def addTopics (fs : List (String × JValue)) : List (String × JValue) :=
  if (List.lookup "topics" fs).isSome then fs else setField fs "topics" (.arr [])

/-- The validation/repair body of `GeminiClient._parse_response` after
`json.loads` succeeded: `none` models the exception path (non-dict
data eventually raises on indexing, and a non-object tag raises on
`.get`), which the caller turns into the fallback response. -/
def validateParsed (data : JValue) : Option JValue :=
  match data with
  | .obj fs0 =>
    let fs1 := fillRequired fs0
    let fs2 := normalizeTags fs1
    let tags := getTags fs2
    match scanPrimary tags with
    | none => none
    | some true => some (.obj (addTopics fs2))
    | some false =>
      let fs3 :=
        if 0 < tags.length then setField fs2 "tags" (.arr (setFirstPrimary tags))
        else fs2
      some (.obj (addTopics fs3))
  | _ => none

/-- `GeminiClient._parse_response` at the `json.loads` boundary:
an unparseable response (`none`) or any repair-path exception yields
the fallback response for title `"Unknown"`. -/
def parseResponse (parsed : Option JValue) : JValue :=
  match parsed with
  | none => fallbackResponse "Unknown"
  | some data => (validateParsed data).getD (fallbackResponse "Unknown")

/-- The tag list of an analysis result. -/
def tagsListOf (r : JValue) : List JValue :=
  match r with
  | .obj fs => getTags fs
  | _ => []

/-- A tag object whose `primary` value is truthy (with Python's
`.get("primary", False)` default). -/
def truthyPrimary : JValue → Bool
  | .obj fs => truthy ((List.lookup "primary" fs).getD (.jbool false))
  | _ => false

/-- Count of tags whose `primary` field is literally `true`. -/
def countPrimaryTrue (tags : List JValue) : Nat :=
  tags.countP fun t =>
    match t with
    | .obj fs =>
      match List.lookup "primary" fs with
      | some (.jbool true) => true
      | _ => false
    | _ => false

/-! ### Field-lookup facts -/

/-- Looking up the key just set. -/
theorem lookup_setField_self (fs : List (String × JValue)) (k : String) (v : JValue) :
    List.lookup k (setField fs k v) = some v := by
  induction fs with
  | nil => simp [setField, List.lookup]
  | cons p rest ih =>
    obtain ⟨k', v'⟩ := p
    by_cases h : k' = k
    · subst h
      simp [setField, List.lookup]
    · have hbe : (k == k') = false := beq_eq_false_iff_ne.mpr (fun he => h he.symm)
      simp only [setField, if_neg h, List.lookup, hbe]
      exact ih

/-- Setting one key leaves other keys' lookups unchanged. -/
theorem lookup_setField_ne (fs : List (String × JValue)) (k : String) (v : JValue)
    (k' : String) (h : k' ≠ k) :
    List.lookup k' (setField fs k v) = List.lookup k' fs := by
  have hbe : (k' == k) = false := beq_eq_false_iff_ne.mpr h
  induction fs with
  | nil => simp [setField, List.lookup, hbe]
  | cons p rest ih =>
    obtain ⟨k₀, v₀⟩ := p
    by_cases h0 : k₀ = k
    · subst h0
      simp only [setField, if_pos rfl, List.lookup, hbe]
    · simp only [setField, if_neg h0, List.lookup]
      cases hbe0 : (k' == k₀) <;> simp [hbe0, ih]

/-- Filling one required field leaves other keys' lookups unchanged. -/
theorem fillField_lookup_ne (fs : List (String × JValue)) (field : String)
    (k : String) (h : k ≠ field) :
    List.lookup k (fillField fs field) = List.lookup k fs := by
  unfold fillField
  split
  · rfl
  · exact lookup_setField_ne fs field _ k h

/-- After the required-field loop, `tags` holds its original value, or
the default single `uncategorized` tag if it was absent. -/
theorem lookup_tags_fillRequired (fs0 : List (String × JValue)) :
    List.lookup "tags" (fillRequired fs0) =
      some ((List.lookup "tags" fs0).getD (.arr [uncategorizedTag])) := by
  unfold fillRequired
  set fs3 := fillField (fillField (fillField fs0 "title") "summary") "key_takeaways"
    with hfs3
  have h3 : List.lookup "tags" fs3 = List.lookup "tags" fs0 := by
    rw [hfs3, fillField_lookup_ne _ _ _ (by decide), fillField_lookup_ne _ _ _ (by decide),
      fillField_lookup_ne _ _ _ (by decide)]
  unfold fillField
  split
  · rename_i hs
    rw [h3] at hs ⊢
    obtain ⟨v, hv⟩ := Option.isSome_iff_exists.mp hs
    rw [hv]
    rfl
  · rename_i hs
    rw [h3] at hs
    rw [lookup_setField_self]
    cases hl : List.lookup "tags" fs0 with
    | some v => rw [hl] at hs; simp at hs
    | none => rfl

/-- `addTopics` does not touch the tag list. -/
theorem getTags_addTopics (fs : List (String × JValue)) :
    getTags (addTopics fs) = getTags fs := by
  unfold addTopics
  split
  · rfl
  · unfold getTags
    rw [lookup_setField_ne _ _ _ _ (by decide)]

/-- After normalization the tag list is non-empty. -/
theorem getTags_normalizeTags_ne (fs : List (String × JValue)) :
    getTags (normalizeTags fs) ≠ [] := by
  unfold normalizeTags
  split
  · rename_i hne
    cases hl : List.lookup "tags" fs with
    | none => rw [hl] at hne; simp [isNonemptyList] at hne
    | some v =>
      rw [hl] at hne
      cases v with
      | arr l =>
        cases l with
        | nil => simp [isNonemptyList] at hne
        | cons t ts => simp [getTags, hl]
      | str s => simp [isNonemptyList] at hne
      | num q => simp [isNonemptyList] at hne
      | jbool b => simp [isNonemptyList] at hne
      | null => simp [isNonemptyList] at hne
      | obj o => simp [isNonemptyList] at hne
  · unfold getTags
    rw [lookup_setField_self]
    simp

/-- A positive short-circuiting primary scan exhibits a truthy tag. -/
theorem scanPrimary_true_any :
    ∀ (l : List JValue), scanPrimary l = some true → l.any truthyPrimary = true := by
  intro l
  induction l with
  | nil => intro h; simp [scanPrimary] at h
  | cons t ts ih =>
    intro h
    cases t with
    | obj fs =>
      simp only [scanPrimary] at h
      by_cases hp : truthy ((List.lookup "primary" fs).getD (.jbool false)) = true
      · simp [List.any, truthyPrimary, hp]
      · rw [if_neg hp] at h
        simp [List.any, ih h]
    | str s => simp [scanPrimary] at h
    | num q => simp [scanPrimary] at h
    | jbool b => simp [scanPrimary] at h
    | null => simp [scanPrimary] at h
    | arr a => simp [scanPrimary] at h

/-- A completed negative primary scan means the head tag is an object
(a non-object would have raised). -/
theorem scanPrimary_false_head (t : JValue) (ts : List JValue)
    (h : scanPrimary (t :: ts) = some false) : ∃ fs, t = .obj fs := by
  cases t with
  | obj fs => exact ⟨fs, rfl⟩
  | str s => simp [scanPrimary] at h
  | num q => simp [scanPrimary] at h
  | jbool b => simp [scanPrimary] at h
  | null => simp [scanPrimary] at h
  | arr a => simp [scanPrimary] at h

/-- Setting the tag list and reading it back. -/
theorem getTags_setField_tags (fs : List (String × JValue)) (l : List JValue) :
    getTags (setField fs "tags" (.arr l)) = l := by
  unfold getTags
  rw [lookup_setField_self]

/-- `validateParsed` on an object, with the lets unfolded. -/
theorem validateParsed_obj (fs0 : List (String × JValue)) :
    validateParsed (.obj fs0) =
      match scanPrimary (getTags (normalizeTags (fillRequired fs0))) with
      | none => none
      | some true => some (.obj (addTopics (normalizeTags (fillRequired fs0))))
      | some false =>
        some (.obj (addTopics
          (if 0 < (getTags (normalizeTags (fillRequired fs0))).length then
            setField (normalizeTags (fillRequired fs0)) "tags"
              (.arr (setFirstPrimary (getTags (normalizeTags (fillRequired fs0)))))
          else normalizeTags (fillRequired fs0)))) := rfl

/-! ### Claims C5 and C6 -/

/-- An analysis response whose two tags are both marked primary. -/
def twoPrimaryResponse : JValue :=
  .obj [("title", .str "t"), ("summary", .str "s"),
        ("key_takeaways", .arr []),
        ("tags", .arr [
          .obj [("name", .str "a"), ("confidence", .num 90), ("primary", .jbool true)],
          .obj [("name", .str "b"), ("confidence", .num 80), ("primary", .jbool true)]]),
        ("topics", .arr [])]

/-- C5 (counterexample): a parseable response carrying two tags both
marked `primary = true` passes through the repair untouched (the code
only ever forces a primary when none exists), so the returned tag list
has two tags and two of them have `primary = true` — not exactly one. -/
theorem claim5_counterexample :
    (tagsListOf (parseResponse (some twoPrimaryResponse))).length = 2 ∧
      countPrimaryTrue (tagsListOf (parseResponse (some twoPrimaryResponse))) = 2 :=
  ⟨rfl, rfl⟩

/-- C5 (amended): every result of the analysis response parser
(including the fallback) has a non-empty tag list in which at least one
tag has a truthy `primary` value. -/
theorem claim5_at_least_one_primary (parsed : Option JValue) :
    tagsListOf (parseResponse parsed) ≠ [] ∧
      (tagsListOf (parseResponse parsed)).any truthyPrimary = true := by
  have hfbok : tagsListOf (fallbackResponse "Unknown") ≠ [] ∧
      (tagsListOf (fallbackResponse "Unknown")).any truthyPrimary = true := by
    rw [show tagsListOf (fallbackResponse "Unknown") = [uncategorizedTag] from rfl]
    exact ⟨by simp, rfl⟩
  cases parsed with
  | none => exact hfbok
  | some data =>
    cases data with
    | str s => exact hfbok
    | num q => exact hfbok
    | jbool b => exact hfbok
    | null => exact hfbok
    | arr a => exact hfbok
    | obj fs0 =>
      have hpr : parseResponse (some (.obj fs0)) =
          (validateParsed (.obj fs0)).getD (fallbackResponse "Unknown") := rfl
      rw [hpr, validateParsed_obj]
      have htne : getTags (normalizeTags (fillRequired fs0)) ≠ [] :=
        getTags_normalizeTags_ne (fillRequired fs0)
      cases hscan : scanPrimary (getTags (normalizeTags (fillRequired fs0))) with
      | none => exact hfbok
      | some b =>
        cases b with
        | true =>
          rw [show tagsListOf ((some (JValue.obj (addTopics (normalizeTags
              (fillRequired fs0))))).getD (fallbackResponse "Unknown")) =
            getTags (addTopics (normalizeTags (fillRequired fs0))) from rfl]
          rw [getTags_addTopics]
          exact ⟨htne, scanPrimary_true_any _ hscan⟩
        | false =>
          obtain ⟨t, ts, htts⟩ := List.exists_cons_of_ne_nil htne
          have hlen : 0 < (getTags (normalizeTags (fillRequired fs0))).length := by
            rw [htts]; simp
          rw [if_pos hlen]
          rw [show tagsListOf ((some (JValue.obj (addTopics (setField
              (normalizeTags (fillRequired fs0)) "tags"
              (.arr (setFirstPrimary (getTags (normalizeTags
                (fillRequired fs0))))))))).getD (fallbackResponse "Unknown")) =
            getTags (addTopics (setField (normalizeTags (fillRequired fs0)) "tags"
              (.arr (setFirstPrimary (getTags (normalizeTags
                (fillRequired fs0))))))) from rfl]
          rw [getTags_addTopics, getTags_setField_tags]
          rw [htts] at hscan ⊢
          obtain ⟨fsb, hfsb⟩ := scanPrimary_false_head t ts hscan
          rw [hfsb]
          refine ⟨by simp [setFirstPrimary], ?_⟩
          simp only [setFirstPrimary, List.any_cons, Bool.or_eq_true]
          left
          simp only [truthyPrimary, lookup_setField_self, Option.getD_some]
          rfl

/-- C6: a parseable object response with no `tags` field — or whose
`tags` value is not a list, or is the empty list — is repaired so that
the returned tag list is exactly
`[{"name": "uncategorized", "confidence": 100, "primary": True}]`. -/
theorem claim6_missing_tags_repaired (fs0 : List (String × JValue))
    (h : ∀ v, List.lookup "tags" fs0 = some v → isNonemptyList v = false) :
    tagsListOf (parseResponse (some (.obj fs0))) = [uncategorizedTag] := by
  have hfill := lookup_tags_fillRequired fs0
  have hget : getTags (normalizeTags (fillRequired fs0)) = [uncategorizedTag] := by
    unfold normalizeTags
    cases hl : List.lookup "tags" fs0 with
    | none =>
      rw [hl] at hfill
      simp only [Option.getD_none] at hfill
      rw [hfill]
      simp only [Option.getD_some]
      rw [if_pos (by rfl)]
      unfold getTags
      rw [hfill]
    | some v =>
      have hv := h v hl
      rw [hl] at hfill
      simp only [Option.getD_some] at hfill
      rw [hfill]
      simp only [Option.getD_some]
      rw [if_neg (by simp [hv]), getTags_setField_tags]
  show tagsListOf ((validateParsed (.obj fs0)).getD (fallbackResponse "Unknown")) = _
  rw [validateParsed_obj, hget]
  rw [show scanPrimary [uncategorizedTag] = some true from rfl]
  simp only [Option.getD_some]
  rw [show ∀ fs : List (String × JValue), tagsListOf (.obj fs) = getTags fs
    from fun _ => rfl]
  rw [getTags_addTopics, hget]

/-- C6 (witness): the theorem applied to a concrete object with no
`tags` field. -/
theorem claim6_witness :
    tagsListOf (parseResponse (some (.obj [("title", .str "t")]))) =
      [uncategorizedTag] :=
  claim6_missing_tags_repaired [("title", .str "t")]
    (by intro v hv; simp [List.lookup] at hv)

/-! ## src/storage.py (`ProcessedFilesDB`)

The SQLite table `processed_files` has a UNIQUE `file_path` column and
is only ever accessed by key, so it is modelled as an association list
keyed by `file_path`.  The wall-clock `processed_at` column is not
modelled (nothing reads it). -/

/-- One row of `processed_files` (minus `id`/`processed_at`). -/
structure LedgerRecord where
  file_hash : Option String
  account_id : Option String
  status : String
  error_message : Option String
  output_path : Option String
deriving DecidableEq, Repr

/-- The ledger state: rows keyed by unique `file_path`. -/
abbrev Ledger := List (String × LedgerRecord)

/-- `INSERT OR REPLACE` keyed by the unique `file_path`. -/
def setRecord : Ledger → String → LedgerRecord → Ledger
  | [], k, r => [(k, r)]
  | (k', r') :: rest, k, r =>
    if k' = k then (k, r) :: rest else (k', r') :: setRecord rest k r

/-- `ProcessedFilesDB.is_processed`: true iff a row for `file_path`
exists and its status is `"success"`. -/
def isProcessed (db : Ledger) (file_path : String) : Bool :=
  match List.lookup file_path db with
  | some r => r.status == "success"
  | none => false

/-- `ProcessedFilesDB.mark_processed`: upsert the row for `file_path`. -/
def markProcessed (db : Ledger) (file_path status : String)
    (account_id file_hash error_message output_path : Option String) : Ledger :=
  setRecord db file_path
    ⟨file_hash, account_id, status, error_message, output_path⟩

/-- Looking up the row just upserted. -/
theorem lookup_setRecord_self (db : Ledger) (k : String) (r : LedgerRecord) :
    List.lookup k (setRecord db k r) = some r := by
  induction db with
  | nil => simp [setRecord, List.lookup]
  | cons p rest ih =>
    obtain ⟨k', r'⟩ := p
    by_cases h : k' = k
    · subst h
      simp [setRecord, List.lookup]
    · have hbe : (k == k') = false := beq_eq_false_iff_ne.mpr (fun he => h he.symm)
      simp only [setRecord, if_neg h, List.lookup, hbe]
      exact ih

/-! ## src/job_processor.py (`JobProcessor.process_job_file`)

Side effects are recorded as an explicit event trace; the fallible
external collaborators (download, transcription, analysis, note
rendering, audio copy) are oracles in a `PipelineEnv`, each either
returning a value or raising an exception with a message
(`Except String`). -/

/-- `DownloadResult` from audio_downloader.py. -/
structure DownloadResult where
  video_id : String
  title : String
  channel : String
  duration : Int
  upload_date : Option String
  audio_path : Option String
  caption_path : Option String
  caption_source : Option String
  thumbnail_url : Option String
  description : Option String
deriving DecidableEq, Repr

/-- An observable side effect of one `process_job_file` run, in
program order.  Stage events (`download`, `transcribe`, ...) are
recorded when the call is made, before its outcome is known. -/
inductive Event where
  | download
  | downloadLog
  | transcribe
  | analyze
  | analysisLog
  | createNote
  | copyAudio
  | processingLog
  | errorLog
  | ledgerWrite (file_path : String) (status : String)
  | notifySuccess
  | notifyError
  | cleanup
deriving DecidableEq, Repr

/-- Is an event a ledger write? -/
def isLedgerWrite : Event → Bool
  | .ledgerWrite _ _ => true
  | _ => false

/-- Is an event a ledger write with status `"error"`? -/
def isErrorLedgerWrite : Event → Bool
  | .ledgerWrite _ s => s == "error"
  | _ => false

/-- Outcomes of the external collaborators for one job run
(`audio_downloader.download` may also return a falsy `None`). -/
structure PipelineEnv where
  download : Except String (Option DownloadResult)
  transcribe : Except String TranscriptResult
  available_tags : List String
  analyze : Except String JValue
  createNote : Except String String
  copyAudio : Except String Unit

/-- The result of one run: the returned
`(success, output_folder_name, video_id)` triple, the ledger after the
run, and the event trace. -/
abbrev RunResult := (Bool × Option String × Option String) × Ledger × List Event

/-- The `except Exception` block of `process_job_file`: error log (only
when a video id is known), ledger write with status `"error"` and the
captured message, error notification, cleanup (only when a video id is
known), and the `(False, None, video_id)` return. -/
def handleError (db : Ledger) (job_identifier : String)
    (account_id : Option String) (events : List Event) (error_msg : String)
    (video_id : Option String) : RunResult :=
  ((false, none, video_id),
   markProcessed db job_identifier "error" account_id none (some error_msg) none,
   (events ++ (if video_id.isSome then [Event.errorLog] else [])) ++
     [Event.ledgerWrite job_identifier "error", Event.notifyError] ++
     (if video_id.isSome then [Event.cleanup] else []))

/-- The tail of the success path: processing log, ledger write with
status `"success"` (file hash = video id, output path = the produced
folder), success notification, temp cleanup, and the
`(True, folder, video_id)` return. -/
def successResult (db : Ledger) (job_identifier : String)
    (account_id : Option String) (video_id folder_name : String)
    (events : List Event) : RunResult :=
  ((true, some folder_name, some video_id),
   markProcessed db job_identifier "success" account_id (some video_id) none
     (some folder_name),
   events ++ [Event.processingLog, Event.ledgerWrite job_identifier "success",
     Event.notifySuccess, Event.cleanup])

/-- Python `x[:300]` succeeds exactly on sequence values (`str`,
`list`); on a number, boolean, `None` or dict it raises `TypeError`. -/
def sliceable : JValue → Bool
  | .str _ => true
  | .arr _ => true
  | _ => false

/-- `value.get(key, default)`: `none` models the `AttributeError`
raised when the value is not a dict. -/
def pyGet (v : JValue) (key : String) (default : JValue) : Option JValue :=
  match v with
  | .obj fs => some ((List.lookup key fs).getD default)
  | _ => none

/-- Does `[t.get("name", "uncategorized") for t in tags]` complete
without raising?  A list iterates its elements (`.get` raises on a
non-dict element); a dict iterates its keys and a string its
characters (strings have no `.get`, so only the empty ones pass);
numbers, booleans and `None` are not iterable. -/
def tagNamesOk : JValue → Bool
  | .arr l => l.all fun t => match t with | .obj _ => true | _ => false
  | .obj fs => fs.isEmpty
  | .str s => s == ""
  | _ => false

/-- Message of the `AttributeError` from `analysis.get` on a non-dict
analysis value (the interpreter's exact text is abstracted). -/
def analysisGetRaiseMsg : String := "analysis object has no attribute 'get'"

/-- Message of the error raised while building `tag_names` (the
interpreter's exact text is abstracted). -/
def tagNamesRaiseMsg : String := "tag object has no attribute 'get'"

/-- Message of the `TypeError` from `analysis.get("summary", "")[:300]`
on a non-sliceable summary (the interpreter's exact text is
abstracted). -/
def summarySliceRaiseMsg : String := "summary object is not subscriptable"

/-- The end of the `try` block once the note is assembled: computing
`tags`/`tag_names` for the processing log can raise (before any ledger
write); then the processing log is written and the job is marked
`"success"`; then the success-notification arguments are evaluated —
`analysis.get("summary", "")[:300]` raises on a non-sliceable summary
value, landing in the `except` block AFTER the success ledger write
and producing a second, error-status write. -/
def finishJob (db : Ledger) (job_identifier : String)
    (account_id : Option String) (analysis : JValue)
    (video_id folder_name : String) (events : List Event) : RunResult :=
  match pyGet analysis "tags" (.arr []) with
  | none => handleError db job_identifier account_id events
      analysisGetRaiseMsg (some video_id)
  | some tagsVal =>
    if tagNamesOk tagsVal then
      match pyGet analysis "summary" (.str "") with
      | some summaryVal =>
        if sliceable summaryVal then
          successResult db job_identifier account_id video_id folder_name events
        else
          handleError
            (markProcessed db job_identifier "success" account_id (some video_id)
              none (some folder_name))
            job_identifier account_id
            (events ++ [Event.processingLog,
              Event.ledgerWrite job_identifier "success"])
            summarySliceRaiseMsg (some video_id)
      | none =>
        handleError
          (markProcessed db job_identifier "success" account_id (some video_id)
            none (some folder_name))
          job_identifier account_id
          (events ++ [Event.processingLog,
            Event.ledgerWrite job_identifier "success"])
          analysisGetRaiseMsg (some video_id)
    else
      handleError db job_identifier account_id events tagNamesRaiseMsg
        (some video_id)

/-- `JobProcessor.process_job_file`: skip already-processed jobs
before any side effect, then run resolver → download → transcription →
analysis → note assembly → audio copy → ledger/notify/cleanup, with
every failure routed through `handleError`. -/
def processJobFile (env : PipelineEnv) (db : Ledger)
    (job_content job_filename job_identifier : String)
    (account_id account_email : Option String) : RunResult :=
  if isProcessed db job_identifier then ((false, none, none), db, [])
  else
    match parseJobFile job_content with
    | none =>
      handleError db job_identifier account_id []
        ("No valid YouTube URL found in job file: " ++ job_filename) none
    | some url =>
      match extractVideoId url with
      | none =>
        handleError db job_identifier account_id []
          ("Could not extract video ID from URL: " ++ url) none
      | some video_id =>
        match env.download with
        | .error e =>
          handleError db job_identifier account_id [Event.download] e (some video_id)
        | .ok none =>
          handleError db job_identifier account_id [Event.download]
            ("Failed to download video: " ++ video_id) (some video_id)
        | .ok (some dr) =>
          match env.transcribe with
          | .error e =>
            handleError db job_identifier account_id
              [Event.download, Event.downloadLog, Event.transcribe] e (some video_id)
          | .ok _transcript_result =>
            match env.analyze with
            | .error e =>
              handleError db job_identifier account_id
                [Event.download, Event.downloadLog, Event.transcribe, Event.analyze]
                e (some video_id)
            | .ok analysis =>
              match env.createNote with
              | .error e =>
                handleError db job_identifier account_id
                  [Event.download, Event.downloadLog, Event.transcribe, Event.analyze,
                   Event.analysisLog, Event.createNote] e (some video_id)
              | .ok folder_name =>
                match dr.audio_path with
                | some _ =>
                  match env.copyAudio with
                  | .error e =>
                    handleError db job_identifier account_id
                      [Event.download, Event.downloadLog, Event.transcribe,
                       Event.analyze, Event.analysisLog, Event.createNote,
                       Event.copyAudio] e (some video_id)
                  | .ok _ =>
                    finishJob db job_identifier account_id analysis video_id
                      folder_name
                      [Event.download, Event.downloadLog, Event.transcribe,
                       Event.analyze, Event.analysisLog, Event.createNote,
                       Event.copyAudio]
                | none =>
                  finishJob db job_identifier account_id analysis video_id
                    folder_name
                    [Event.download, Event.downloadLog, Event.transcribe,
                     Event.analyze, Event.analysisLog, Event.createNote]

/-- Every run is a skip (already processed), an error-handler exit
from before any ledger write, a success exit, or the one
late-failure exit where the success-notification arguments raise
after the success ledger write: there the error handler runs on the
already-success-marked ledger with the success write in its event
prefix.  Pre-write error exits carry a stage-event prefix with no
ledger write, containing `download` exactly when a video id was
resolved. -/
theorem processJobFile_shape (env : PipelineEnv) (db : Ledger)
    (jc jf J : String) (ai ae : Option String) :
    (isProcessed db J = true ∧
      processJobFile env db jc jf J ai ae = ((false, none, none), db, [])) ∨
    (∃ events msg vid,
      processJobFile env db jc jf J ai ae = handleError db J ai events msg vid ∧
      events.countP isLedgerWrite = 0 ∧
      (Event.download ∈ events ↔ vid.isSome = true)) ∨
    (∃ vid folder events,
      processJobFile env db jc jf J ai ae =
        successResult db J ai vid folder events) ∨
    (∃ events msg vid folder,
      processJobFile env db jc jf J ai ae =
        handleError (markProcessed db J "success" ai (some vid) none (some folder))
          J ai (events ++ [Event.processingLog, Event.ledgerWrite J "success"])
          msg (some vid) ∧
      events.countP isLedgerWrite = 0 ∧ Event.download ∈ events) := by
  unfold processJobFile finishJob
  split
  · rename_i hy
    exact Or.inl ⟨hy, rfl⟩
  · repeat' split
    all_goals first
      | exact Or.inr (Or.inl ⟨_, _, _, rfl, rfl, by simp⟩)
      | exact Or.inr (Or.inr (Or.inl ⟨_, _, _, rfl⟩))
      | exact Or.inr (Or.inr (Or.inr ⟨_, _, _, _, rfl, rfl, by simp⟩))

/-! ### Claims C1 and C2 -/

/-- C1: `is_processed` is true exactly when a ledger row with status
`"success"` exists for the identifier; a run on an
already-successfully-processed identifier returns `(False, None,
None)` immediately with an unchanged ledger and an empty event trace
(no download, transcription, analysis, notification, or ledger write);
and a run that returns success leaves the identifier processed. -/
theorem claim1_skip_processed :
    (∀ (db : Ledger) (J : String),
        isProcessed db J = true ↔
          ∃ r : LedgerRecord, List.lookup J db = some r ∧ r.status = "success")
    ∧ (∀ (env : PipelineEnv) (db : Ledger) (jc jf J : String)
        (ai ae : Option String), isProcessed db J = true →
        processJobFile env db jc jf J ai ae = ((false, none, none), db, []))
    ∧ (∀ (env : PipelineEnv) (db : Ledger) (jc jf J : String)
        (ai ae : Option String),
        (processJobFile env db jc jf J ai ae).1.1 = true →
        isProcessed (processJobFile env db jc jf J ai ae).2.1 J = true) := by
  refine ⟨?_, ?_, ?_⟩
  · intro db J
    unfold isProcessed
    cases hl : List.lookup J db with
    | none => simp
    | some r => simp
  · intro env db jc jf J ai ae h
    unfold processJobFile
    rw [if_pos h]
  · intro env db jc jf J ai ae h
    rcases processJobFile_shape env db jc jf J ai ae with
      ⟨_, heq⟩ | ⟨ev, msg, vid, heq, _, _⟩ | ⟨vid, folder, ev, heq⟩ |
      ⟨ev, msg, vid, folder, heq, _, _⟩
    · rw [heq] at h
      simp at h
    · rw [heq] at h
      simp [handleError] at h
    · rw [heq]
      simp [successResult, isProcessed, markProcessed, lookup_setRecord_self]
    · rw [heq] at h
      simp [handleError] at h

/-- A concrete environment (collaborator outcomes are never consulted
on a skipped job). -/
def trivialEnv : PipelineEnv :=
  ⟨.ok none, .ok ⟨[], "whisper", none⟩, [], .ok .null, .ok "folder", .ok ()⟩

/-- A ledger holding one successful row. -/
def successDb : Ledger :=
  [("job-1", ⟨some "vid", none, "success", none, some "out"⟩)]

/-- C1 (witness): the skip conjunct applied to a ledger with a
successful row for the identifier. -/
theorem claim1_witness :
    processJobFile trivialEnv successDb "content" "job.txt" "job-1" none none =
      ((false, none, none), successDb, []) :=
  claim1_skip_processed.2.1 trivialEnv successDb "content" "job.txt" "job-1"
    none none (by decide)

/-- Error-status ledger writes are ledger writes. -/
theorem countP_errWrite_le (l : List Event) :
    l.countP isErrorLedgerWrite ≤ l.countP isLedgerWrite := by
  induction l with
  | nil => simp
  | cons e t ih =>
    rw [List.countP_cons, List.countP_cons]
    cases e <;>
      simp [isErrorLedgerWrite, isLedgerWrite] <;>
      first
        | omega
        | (split_ifs <;> omega)

/-- What any error-handler exit guarantees, given that its event
prefix holds no error-status write, at most one ledger write (which
can only be the success write), and `download` only when a video id is
known. -/
theorem handleError_meets (db' : Ledger) (J : String) (ai : Option String)
    (ev0 : List Event) (msg : String) (vid : Option String)
    (herr0 : ev0.countP isErrorLedgerWrite = 0)
    (hlw : ev0.countP isLedgerWrite ≤ 1)
    (hs : ev0.countP isLedgerWrite = 1 → Event.ledgerWrite J "success" ∈ ev0)
    (hdc : Event.download ∈ ev0 → vid.isSome = true) :
    List.lookup J (handleError db' J ai ev0 msg vid).2.1 =
      some ⟨none, ai, "error", some msg, none⟩ ∧
    ((handleError db' J ai ev0 msg vid).2.2).countP isErrorLedgerWrite = 1 ∧
    ((handleError db' J ai ev0 msg vid).2.2).countP isLedgerWrite ≤ 2 ∧
    (((handleError db' J ai ev0 msg vid).2.2).countP isLedgerWrite = 2 →
      Event.ledgerWrite J "success" ∈ (handleError db' J ai ev0 msg vid).2.2) ∧
    Event.notifyError ∈ (handleError db' J ai ev0 msg vid).2.2 ∧
    (Event.download ∈ (handleError db' J ai ev0 msg vid).2.2 →
      Event.cleanup ∈ (handleError db' J ai ev0 msg vid).2.2) := by
  refine ⟨lookup_setRecord_self db' J _, ?_, ?_, ?_, ?_, ?_⟩
  · cases vid <;>
      simp [handleError, List.countP_append, List.countP_cons, isErrorLedgerWrite,
        herr0]
  · cases vid <;>
      simp [handleError, List.countP_append, List.countP_cons, isLedgerWrite] <;>
      omega
  · intro h2
    have h1 : ev0.countP isLedgerWrite = 1 := by
      cases vid <;>
        simp [handleError, List.countP_append, List.countP_cons, isLedgerWrite]
          at h2 <;>
        omega
    show Event.ledgerWrite J "success" ∈
      (ev0 ++ (if vid.isSome = true then [Event.errorLog] else [])) ++
        [Event.ledgerWrite J "error", Event.notifyError] ++
        (if vid.isSome = true then [Event.cleanup] else [])
    rw [List.mem_append]
    left
    rw [List.mem_append]
    left
    rw [List.mem_append]
    left
    exact hs h1
  · cases vid <;> simp [handleError]
  · cases vid with
    | none =>
      intro hmem
      have hm0 : Event.download ∈ ev0 := by
        simpa [handleError] using hmem
      simpa using hdc hm0
    | some v =>
      intro _
      simp [handleError]

/-- C2 (counterexample input): a parseable analysis whose `summary` is
a JSON number — `_parse_response` only substitutes defaults for
*missing* fields, so the number survives the repair. -/
def numberSummaryResponse : JValue :=
  .obj [("title", .str "t"), ("summary", .num 42),
        ("key_takeaways", .arr [.str "k"]),
        ("tags", .arr [.obj [("name", .str "a"), ("confidence", .num 90),
          ("primary", .jbool true)]]),
        ("topics", .arr [])]

/-- An environment where every collaborator succeeds but the analysis
result carries the number-valued summary. -/
def badSummaryEnv : PipelineEnv :=
  ⟨.ok (some ⟨"dQw4w9WgXcQ", "T", "C", 10, none, none, none, none, none, none⟩),
   .ok ⟨[], "whisper", none⟩, [],
   .ok (parseResponse (some numberSummaryResponse)), .ok "folder", .ok ()⟩

/-- C2 (counterexample): with every collaborator succeeding but a
number-valued `summary` in the parsed analysis,
`analysis.get("summary", "")[:300]` raises after the success ledger
write, so the run fails with TWO ledger writes — a success write
followed by the error write — refuting "exactly one ledger write with
status error" for failing runs. -/
theorem claim2_counterexample :
    (processJobFile badSummaryEnv [] "https://youtu.be/dQw4w9WgXcQ" "job.txt"
        "J1" none none).1.1 = false ∧
      ((processJobFile badSummaryEnv [] "https://youtu.be/dQw4w9WgXcQ" "job.txt"
        "J1" none none).2.2).countP isLedgerWrite = 2 ∧
      Event.ledgerWrite "J1" "success" ∈
        (processJobFile badSummaryEnv [] "https://youtu.be/dQw4w9WgXcQ" "job.txt"
          "J1" none none).2.2 := by
  refine ⟨?_, ?_, ?_⟩ <;> decide

/-- C2 (amended): a run that is not skipped and does not succeed never
raises to its caller; it leaves exactly one ledger record for the
identifier, with status `"error"` and the captured message, performs
exactly one error-status ledger write, sends an error notification,
and cleans up whenever a download was attempted.  In total it performs
at most two ledger writes, and only the late path — success-notification
argument evaluation failing after the job was marked processed — adds
a preceding success-status write. -/
theorem claim2_error_path (env : PipelineEnv) (db : Ledger)
    (jc jf J : String) (ai ae : Option String)
    (hnp : isProcessed db J = false)
    (hfail : (processJobFile env db jc jf J ai ae).1.1 = false) :
    ∃ msg : String,
      List.lookup J (processJobFile env db jc jf J ai ae).2.1 =
        some ⟨none, ai, "error", some msg, none⟩ ∧
      ((processJobFile env db jc jf J ai ae).2.2).countP isErrorLedgerWrite = 1 ∧
      ((processJobFile env db jc jf J ai ae).2.2).countP isLedgerWrite ≤ 2 ∧
      (((processJobFile env db jc jf J ai ae).2.2).countP isLedgerWrite = 2 →
        Event.ledgerWrite J "success" ∈ (processJobFile env db jc jf J ai ae).2.2) ∧
      Event.notifyError ∈ (processJobFile env db jc jf J ai ae).2.2 ∧
      (Event.download ∈ (processJobFile env db jc jf J ai ae).2.2 →
        Event.cleanup ∈ (processJobFile env db jc jf J ai ae).2.2) := by
  rcases processJobFile_shape env db jc jf J ai ae with
    ⟨hip, heq⟩ | ⟨ev, msg, vid, heq, hcount, hdl⟩ | ⟨vid, folder, ev, heq⟩ |
    ⟨ev, msg, vid, folder, heq, hcount, hdl⟩
  · rw [hip] at hnp
    simp at hnp
  · rw [heq]
    refine ⟨msg, handleError_meets db J ai ev msg vid ?_ ?_ ?_ ?_⟩
    · have := countP_errWrite_le ev
      omega
    · omega
    · intro h1
      omega
    · exact fun hm => hdl.mp hm
  · rw [heq] at hfail
    simp [successResult] at hfail
  · rw [heq]
    refine ⟨msg, handleError_meets _ J ai _ msg (some vid) ?_ ?_ ?_ ?_⟩
    · rw [List.countP_append,
        show ([Event.processingLog, Event.ledgerWrite J "success"] :
          List Event).countP isErrorLedgerWrite = 0 from rfl]
      have := countP_errWrite_le ev
      omega
    · rw [List.countP_append,
        show ([Event.processingLog, Event.ledgerWrite J "success"] :
          List Event).countP isLedgerWrite = 1 from rfl]
      omega
    · intro _
      simp
    · intro _
      rfl

/-- An environment whose download stage raises. -/
def failingEnv : PipelineEnv :=
  ⟨.error "download failed", .ok ⟨[], "whisper", none⟩, [], .ok .null,
   .ok "folder", .ok ()⟩

/-- C2 (witness): the amended error-path theorem applied to an empty
ledger and a job whose download fails. -/
theorem claim2_witness :
    ∃ msg : String,
      List.lookup "dropbox:a:id1"
          (processJobFile failingEnv [] "https://youtu.be/dQw4w9WgXcQ" "job.txt"
            "dropbox:a:id1" none none).2.1 =
        some ⟨none, none, "error", some msg, none⟩ ∧
      ((processJobFile failingEnv [] "https://youtu.be/dQw4w9WgXcQ" "job.txt"
            "dropbox:a:id1" none none).2.2).countP isErrorLedgerWrite = 1 ∧
      ((processJobFile failingEnv [] "https://youtu.be/dQw4w9WgXcQ" "job.txt"
            "dropbox:a:id1" none none).2.2).countP isLedgerWrite ≤ 2 ∧
      (((processJobFile failingEnv [] "https://youtu.be/dQw4w9WgXcQ" "job.txt"
            "dropbox:a:id1" none none).2.2).countP isLedgerWrite = 2 →
        Event.ledgerWrite "dropbox:a:id1" "success" ∈
          (processJobFile failingEnv [] "https://youtu.be/dQw4w9WgXcQ" "job.txt"
            "dropbox:a:id1" none none).2.2) ∧
      Event.notifyError ∈ (processJobFile failingEnv [] "https://youtu.be/dQw4w9WgXcQ"
        "job.txt" "dropbox:a:id1" none none).2.2 ∧
      (Event.download ∈ (processJobFile failingEnv [] "https://youtu.be/dQw4w9WgXcQ"
          "job.txt" "dropbox:a:id1" none none).2.2 →
        Event.cleanup ∈ (processJobFile failingEnv [] "https://youtu.be/dQw4w9WgXcQ"
          "job.txt" "dropbox:a:id1" none none).2.2) :=
  claim2_error_path failingEnv [] "https://youtu.be/dQw4w9WgXcQ" "job.txt"
    "dropbox:a:id1" none none (by decide) (by decide)

/-! ## src/dropbox_watcher.py (`DropboxWatcher.list_new_files`)

A Dropbox delta listing is an environment of pages: the first page for
a fresh listing of `/Inbox`, and a page per continuation cursor.  The
per-account cursor store (`self.cursors`) is an association list.  The
API-error paths (which return `[]`) are outside this model. -/

/-- A Dropbox metadata entry (`isFile` models
`isinstance(entry, FileMetadata)`). -/
structure FileEntry where
  isFile : Bool
  path_lower : String
  name : String
deriving DecidableEq, Repr

/-- A `ListFolderResult` page. -/
structure ListPage where
  entries : List FileEntry
  cursor : String
  has_more : Bool
deriving DecidableEq, Repr

/-- The remote listing: `files_list_folder("/Inbox")` and
`files_list_folder_continue(cursor)`. -/
structure DropboxEnv where
  firstPage : ListPage
  continuePage : String → ListPage

/-- Update the saved cursor of one account (`self.cursors[account_id] =
result.cursor`). -/
def setCursor : List (String × String) → String → String → List (String × String)
  | [], k, v => [(k, v)]
  | (k', v') :: rest, k, v =>
    if k' = k then (k, v) :: rest else (k', v') :: setCursor rest k v

/-- Looking up the cursor just saved. -/
theorem lookup_setCursor_self (cs : List (String × String)) (k v : String) :
    List.lookup k (setCursor cs k v) = some v := by
  induction cs with
  | nil => simp [setCursor, List.lookup]
  | cons p rest ih =>
    obtain ⟨k', v'⟩ := p
    by_cases h : k' = k
    · subst h
      simp [setCursor, List.lookup]
    · have hbe : (k == k') = false := beq_eq_false_iff_ne.mpr (fun he => h he.symm)
      simp only [setCursor, if_neg h, List.lookup, hbe]
      exact ih

/-- `pathlib.PurePath.name`: the last non-empty path component. -/
def pyName (path : String) : String :=
  String.mk (((splitOnChar '/' path.data).filter (fun l => l ≠ [])).getLastD [])

/-- `pathlib.PurePath.suffix`: from the last dot of the name, unless
the dot is the name's first or last character. -/
def pySuffix (path : String) : String :=
  let nm := (pyName path).data
  match nm.reverse.findIdx? (· = '.') with
  | some rj =>
    let i := nm.length - 1 - rj
    if 0 < i ∧ i < nm.length - 1 then String.mk (nm.drop i) else ""
  | none => ""

/-- ASCII lowercasing of a string (Python `str.lower()`). -/
def lowerStr (s : String) : String :=
  String.mk (s.data.map Char.toLower)

/-- `JobProcessor.is_job_file`: the path's suffix, lowercased, is
`.txt`. -/
def isJobFile (file_path : String) : Bool :=
  lowerStr (pySuffix file_path) == ".txt"

/-- The entry filter of `list_new_files`: file-metadata entries whose
lowercased path is a job file. -/
def collectJobFiles (entries : List FileEntry) : List FileEntry :=
  entries.filter (fun e => e.isFile && isJobFile e.path_lower)

/-- The `while result.has_more` pagination loop: fetch the next page by
the previous page's cursor, save the new page's cursor for the account,
collect its job files.  `fuel` bounds the iterations of the unbounded
Python loop; `none` means the listing did not finish within `fuel`
continuations. -/
def listLoop (env : DropboxEnv) (account_id : String) :
    Nat → ListPage → List (String × String) → List FileEntry →
      Option (List (String × String) × List FileEntry)
  | fuel, result, cursors, acc =>
    if result.has_more then
      match fuel with
      | 0 => none
      | fuel + 1 =>
        let result' := env.continuePage result.cursor
        listLoop env account_id fuel result'
          (setCursor cursors account_id result'.cursor)
          (acc ++ collectJobFiles result'.entries)
    else some (cursors, acc)

/-- `DropboxWatcher.list_new_files`: resume from the saved cursor when
one is present and non-empty (Python truthiness of `cursors.get`),
otherwise list `/Inbox` afresh; save the cursor after the first page
and after every continuation page. -/
def listNewFiles (env : DropboxEnv) (cursors : List (String × String))
    (account_id : String) (fuel : Nat) :
    Option (List (String × String) × List FileEntry) :=
  let result :=
    match List.lookup account_id cursors with
    | some c => if c ≠ "" then env.continuePage c else env.firstPage
    | none => env.firstPage
  listLoop env account_id fuel result
    (setCursor cursors account_id result.cursor)
    (collectJobFiles result.entries)

/-- The pagination loop cut off after `k` further pages: the cursor
store left behind when the process dies mid-listing. -/
def runKPages (env : DropboxEnv) (account_id : String) :
    Nat → ListPage → List (String × String) → List (String × String)
  | 0, _, cursors => cursors
  | k + 1, result, cursors =>
    if result.has_more then
      let result' := env.continuePage result.cursor
      runKPages env account_id k result' (setCursor cursors account_id result'.cursor)
    else cursors

/-- The cursor store after a listing interrupted once `k ≥ 1` pages
have been fetched and saved. -/
def listInterrupted (env : DropboxEnv) (cursors : List (String × String))
    (account_id : String) (k : Nat) : List (String × String) :=
  match k with
  | 0 => cursors
  | k + 1 =>
    let result :=
      match List.lookup account_id cursors with
      | some c => if c ≠ "" then env.continuePage c else env.firstPage
      | none => env.firstPage
    runKPages env account_id k result (setCursor cursors account_id result.cursor)

/-- C9: over a three-page delta listing, the saved cursor equals page
1's cursor after page 1 is fetched and page 2's cursor after page 2; a
full run returns every page's job files and leaves page 3's cursor
saved; and a listing resumed from the store left by an interruption
after page 2 continues from page 3's cursor — fetching only page 3's
entries, not page 1's. -/
theorem claim9_cursor_saved_per_page :
    ∀ (env : DropboxEnv) (acct : String) (cursors : List (String × String))
      (e1 e2 e3 : List FileEntry) (c1 c2 c3 : String),
      env.firstPage = ⟨e1, c1, true⟩ →
      env.continuePage c1 = ⟨e2, c2, true⟩ →
      env.continuePage c2 = ⟨e3, c3, false⟩ →
      List.lookup acct cursors = none →
      c2 ≠ "" →
      listInterrupted env cursors acct 1 = setCursor cursors acct c1 ∧
      listInterrupted env cursors acct 2 =
        setCursor (setCursor cursors acct c1) acct c2 ∧
      listNewFiles env cursors acct 2 =
        some (setCursor (setCursor (setCursor cursors acct c1) acct c2) acct c3,
          (collectJobFiles e1 ++ collectJobFiles e2) ++ collectJobFiles e3) ∧
      listNewFiles env (listInterrupted env cursors acct 2) acct 2 =
        some (setCursor (listInterrupted env cursors acct 2) acct c3,
          collectJobFiles e3) := by
  intro env acct cursors e1 e2 e3 c1 c2 c3 h1 h2 h3 h4 hc2
  have hint1 : listInterrupted env cursors acct 1 = setCursor cursors acct c1 := by
    simp [listInterrupted, runKPages, h1, h4]
  have hint2 : listInterrupted env cursors acct 2 =
      setCursor (setCursor cursors acct c1) acct c2 := by
    simp [listInterrupted, runKPages, h1, h2, h4]
  refine ⟨hint1, hint2, ?_, ?_⟩
  · simp [listNewFiles, listLoop, h1, h2, h3, h4]
  · rw [hint2]
    simp [listNewFiles, listLoop, h2, h3, lookup_setCursor_self, hc2]

/-- A concrete three-page listing. -/
def pageEnv : DropboxEnv :=
  ⟨⟨[⟨true, "/inbox/a.txt", "a.txt"⟩], "c1", true⟩,
   fun c =>
     if c = "c1" then ⟨[⟨true, "/inbox/b.txt", "b.txt"⟩], "c2", true⟩
     else if c = "c2" then ⟨[⟨true, "/inbox/c.txt", "c.txt"⟩], "c3", false⟩
     else ⟨[], "", false⟩⟩

/-- C9 (witness): the resumption conjunct at the concrete three-page
listing — the resumed run fetches page 3 only. -/
theorem claim9_witness :
    listNewFiles pageEnv (listInterrupted pageEnv [] "acct" 2) "acct" 2 =
      some (setCursor (listInterrupted pageEnv [] "acct" 2) "acct" "c3",
        collectJobFiles [⟨true, "/inbox/c.txt", "c.txt"⟩]) :=
  (claim9_cursor_saved_per_page pageEnv "acct" []
    [⟨true, "/inbox/a.txt", "a.txt"⟩] [⟨true, "/inbox/b.txt", "b.txt"⟩]
    [⟨true, "/inbox/c.txt", "c.txt"⟩] "c1" "c2" "c3" rfl rfl rfl rfl
    (by decide)).2.2.2

end VoxBox
